import Mathlib

/-!
# Verification of the visa-monitor-cloud monitoring engine

Shallow embedding of the monitoring core of the repository, covering two
source variants:

* the "rotation" monitor embedded in `src/server.js` (class `VisaMonitor`
  with `getNextBrowser`, `markBrowserRateLimited`,
  `processCountryApplicationsWithRotation`, `initializeBrowserPool`,
  `start`, `stop`, `checkAppointmentSlots`), and
* the "universal" monitor in `src/visa-monitor.js` (class `VisaMonitor`
  with `getAvailableBrowser`, `releaseBrowser`, `checkAppointmentSlots`
  returning `false` on error).

Pure logic (string matching, slot evaluation, lease selection, batch
iteration, lifecycle state transitions) is translated into executable Lean
definitions; I/O steps (navigation, DOM evaluation, browser creation) are
replaced by explicit outcome inputs so that the control flow around them is
modelled exactly.
-/

namespace VisaCloud

/-! ## Strings

JavaScript `String.prototype.includes` is substring containment; we model
strings as their character lists.  `String.toLower` models
`String.prototype.toLowerCase` (the source only lowercases ASCII DOM text,
for which the two agree character by character).
-/

/-- Whether `needle` is an initial segment of `hay` (character lists). -/
def startsWithL : List Char → List Char → Bool
  | _, [] => true
  | [], _ :: _ => false
  | h :: hs, n :: ns => h == n && startsWithL hs ns

/-- Whether `needle` occurs contiguously inside `hay` (character lists). -/
def hasSubstr : List Char → List Char → Bool
  | [], n => n.isEmpty
  | h :: t, n => startsWithL (h :: t) n || hasSubstr t n

/-- JavaScript `hay.includes(needle)`: substring containment. -/
def includes (hay needle : String) : Bool :=
  hasSubstr hay.toList needle.toList

/-- JavaScript `s.toLowerCase()` (kernel-reducible version of
`String.toLower`; they agree on every character). -/
def lowerStr (s : String) : String :=
  String.mk (s.toList.map Char.toLower)

/-! ## Slot-indicator evaluation (`checkAppointmentSlots` page callback)

Both variants run the same `page.evaluate` callback over every element
matched by the site's `availableSlots` selector (`src/server.js`
lines 894-909, `src/visa-monitor.js` lines 534-549).  An element is
modelled by the fields the callback reads. -/

/-- One DOM element matched by the slot-indicator selector: its
`textContent`, `className`, the `disabled` property and the presence of a
`disabled` attribute. -/
structure SlotElement where
  textContent : String
  className : String
  disabled : Bool
  hasDisabledAttr : Bool
deriving DecidableEq, Repr

/-- The per-element predicate of the `page.evaluate` callback, translated
clause by clause from the source:

    const text = slot.textContent.toLowerCase();
    const classes = slot.className.toLowerCase();
    const isDisabled = slot.disabled || slot.hasAttribute('disabled');
    return !isDisabled &&
           !text.includes('no slots') && !text.includes('unavailable') &&
           !text.includes('not available') &&
           !classes.includes('disabled') && !classes.includes('unavailable') &&
           (text.includes('available') || text.includes('book') ||
            text.includes('select'));
-/
def slotQualifies (slot : SlotElement) : Bool :=
  let text := lowerStr slot.textContent
  let classes := lowerStr slot.className
  let isDisabled := slot.disabled || slot.hasDisabledAttr
  !isDisabled &&
    !(includes text "no slots") &&
    !(includes text "unavailable") &&
    !(includes text "not available") &&
    !(includes classes "disabled") &&
    !(includes classes "unavailable") &&
    (includes text "available" || includes text "book" || includes text "select")

/-- `Array.from(slots).some(...)`: the fixture-level result of the
`page.evaluate` callback, i.e. the boolean `checkAppointmentSlots` derives
from the DOM. -/
def slotsAvailable (slots : List SlotElement) : Bool :=
  slots.any slotQualifies

/-- Modelled from the spec (claim C1's wording, not the source): the
element "carries an unavailable marker", reading the claim's "text/class
contain an \"unavailable\"/\"no slots\" marker" distributively over both
the text and the class. -/
def carriesUnavailableMarker (slot : SlotElement) : Bool :=
  includes (lowerStr slot.textContent) "unavailable" ||
    includes (lowerStr slot.textContent) "no slots" ||
    includes (lowerStr slot.className) "unavailable" ||
    includes (lowerStr slot.className) "no slots"

/-- Modelled from the spec (claim C1's wording, not the source): the
claim's qualifying conditions read as a predicate — not disabled, no
unavailable/no-slots marker in text or class, and an availability marker
("available"/"book"/"select") in text or class. -/
def claimQualifies (slot : SlotElement) : Bool :=
  let text := lowerStr slot.textContent
  let classes := lowerStr slot.className
  !(slot.disabled || slot.hasDisabledAttr) &&
    !(carriesUnavailableMarker slot) &&
    (includes text "available" || includes text "book" || includes text "select" ||
      includes classes "available" || includes classes "book" || includes classes "select")

/-! ## Least-key selection

Both pool variants pick a lease via `arr.sort((a, b) => key(a) - key(b))[0]`.
JavaScript `Array.prototype.sort` is stable, so the head of the sorted
array is the first element attaining the minimal key; `selectMinBy`
computes exactly that element (the in-place reordering of the array is not
tracked — it only permutes storage order). -/

/-- First element of `l` with minimal `key` (none on the empty list). -/
def selectMinBy {α : Type} (key : α → Int) : List α → Option α
  | [] => none
  | x :: xs => some (xs.foldl (fun best c => if key c < key best then c else best) x)

/-! ## Browser Pool Manager — rotation variant (`src/server.js`)

The rotation monitor keeps, per country, a pool of records
`{ browser, country, index, lastUsed, rateLimited, rateLimitedUntil }`.
A lease has no in-use flag in this variant; rate limiting is its only
state beyond the LRU timestamp. -/

/-- One pool entry of the rotation variant (the browser process handle
itself carries no state the pool logic reads). -/
structure SBrowser where
  index : Nat
  lastUsed : Int
  rateLimited : Bool
  rateLimitedUntil : Int
deriving DecidableEq, Repr

/-- `const cooldownPeriod = 10 * 60 * 1000` (ten minutes), hardcoded in
`getNextBrowser`. -/
def cooldownPeriod : Int := 10 * 60 * 1000

/-- The test of `getNextBrowser`'s filter callback: a browser passes if it
is not rate limited, or its cooldown has elapsed
(`now - b.rateLimitedUntil > cooldownPeriod`). -/
def sbAvailable (b : SBrowser) (now : Int) : Bool :=
  !b.rateLimited || decide (now - b.rateLimitedUntil > cooldownPeriod)

/-- The side effect of the same filter callback: a browser whose cooldown
has elapsed is reset to the idle state (`rateLimited = false`,
`rateLimitedUntil = 0`) as it is considered — lazy cooldown expiry. -/
def refreshBrowser (b : SBrowser) (now : Int) : SBrowser :=
  if b.rateLimited && decide (now - b.rateLimitedUntil > cooldownPeriod) then
    { b with rateLimited := false, rateLimitedUntil := 0 }
  else b

/-- The `availableBrowsers` array computed inside `getNextBrowser`: the
pool after the filter's lazy refresh, restricted to browsers that passed
the filter.  These are the preferred (non-rate-limited) candidates. -/
def preferredCandidates (pool : List SBrowser) (now : Int) : List SBrowser :=
  (pool.map (fun b => refreshBrowser b now)).filter (fun b => sbAvailable b now)

/-- `getNextBrowser(country)` (src/server.js lines 599-637): returns the
chosen browser and the pool as left behind by the call.  An empty pool
yields `none` (the source returns `null`).  If any preferred candidate
exists, the least-recently-used one is chosen and its `lastUsed` is set to
`now`; otherwise the whole (all rate-limited) pool is sorted by
`rateLimitedUntil` and its head returned, untouched (best-effort
degrade). -/
def getNextBrowser (pool : List SBrowser) (now : Int) : Option SBrowser × List SBrowser :=
  if pool.isEmpty then (none, pool)
  else
    let pool1 := pool.map (fun b => refreshBrowser b now)
    let avail := pool1.filter (fun b => sbAvailable b now)
    if avail.isEmpty then
      (selectMinBy (fun b => b.rateLimitedUntil) pool1, pool1)
    else
      match selectMinBy (fun b => b.lastUsed) avail with
      | none => (none, pool1)
      | some b =>
        let b' := { b with lastUsed := now }
        (some b', pool1.map (fun c => if c.index == b.index then b' else c))

/-- `markBrowserRateLimited(country, browserIndex)` (src/server.js
lines 640-652): the pool entry with the given index gets
`rateLimited = true` and `rateLimitedUntil = Date.now()` — the field
stores the time the limit was observed, not the expiry time; the
ten-minute window is added at `acquire` time.  (The accompanying
`BROWSER_RATE_LIMITED` activity-log entry is modelled in the scheduler
section.) -/
def markBrowserRateLimited (pool : List SBrowser) (idx : Nat) (now : Int) : List SBrowser :=
  pool.map (fun b =>
    if b.index == idx then { b with rateLimited := true, rateLimitedUntil := now } else b)

/-! ## Browser Pool Manager — universal variant (`src/visa-monitor.js`)

This variant keeps a single pool of records
`{ browser, index, lastUsed, inUse }`; there is no rate-limit state, and
exclusivity is tracked by the `inUse` flag. -/

/-- One pool entry of the universal variant. -/
structure UBrowser where
  index : Nat
  lastUsed : Int
  inUse : Bool
deriving DecidableEq, Repr

/-- `getAvailableBrowser()` (src/visa-monitor.js lines 299-314): if some
browser is not in use, the least-recently-used such browser is returned
with `lastUsed := now` and `inUse := true`; if all are in use, the
least-recently-used browser of the whole pool is returned unmarked
(degraded path, source lines 302-305). -/
def getAvailableBrowser (pool : List UBrowser) (now : Int) : Option UBrowser × List UBrowser :=
  let avail := pool.filter (fun b => !b.inUse)
  if avail.isEmpty then
    (selectMinBy (fun b => b.lastUsed) pool, pool)
  else
    match selectMinBy (fun b => b.lastUsed) avail with
    | none => (none, pool)
    | some b =>
      let b' := { b with lastUsed := now, inUse := true }
      (some b', pool.map (fun c => if c.index == b.index then b' else c))

/-- `releaseBrowser(browserInstance)` (src/visa-monitor.js lines 316-318):
clears the `inUse` flag of the given lease (`lastUsed` is not touched). -/
def releaseBrowser (pool : List UBrowser) (idx : Nat) : List UBrowser :=
  pool.map (fun c => if c.index == idx then { c with inUse := false } else c)

/-! ## Monitoring Scheduler — one site's batch in one tick (`src/server.js`)

`processCountryApplicationsWithRotation` iterates over the applications of
one country: acquire a browser, run
`processApplicationWithBrowser`, then `incrementAttempts`.  The browser
automation inside one application's check is summarised by a
`CheckResult` input (what the login/check/booking run did); the database
and notification side effects become an explicit event list.  The
in-memory `stats` counters are not modelled.  All `Date.now()` reads of
one tick are collapsed to a single `now`. -/

/-- One tracked application, restricted to the fields the batch logic
reads. -/
structure AppRec where
  id : Nat
  autoBook : Bool
deriving DecidableEq, Repr

/-- Outcome of one application's browser run (login + slot check +
optional booking): either it completes with the slot-check boolean and
the booking result, or some step throws an error carrying a message (and
possibly a page URL containing `too-many-requests`). -/
inductive CheckResult where
  | ok (slotsFound : Bool) (bookingSuccess : Bool)
  | err (msg : String) (urlTooMany : Bool)
deriving DecidableEq, Repr

/-- Side effects observable from the batch loop: persistence-collaborator
calls (`logActivity`, `incrementAttempts`, `incrementSlotsFound`,
`markCompleted`), operator notifications, and console error output. -/
inductive Event where
  | activity (appId : Option Nat) (country : String) (action : String) (details : String)
  | consoleError (msg : String)
  | notified (appId : Nat) (eventType : String)
  | incAttempts (appId : Nat)
  | incSlotsFound (appId : Nat)
  | markCompleted (appId : Nat)
deriving DecidableEq, Repr

/-- The rate-limit test of `processApplicationWithBrowser`'s catch block:
`error.message.includes('Too Many Requests') ||
 error.message.includes('rate limit') ||
 (page && page.url && page.url().includes('too-many-requests'))`. -/
def isRateLimitError (msg : String) (urlTooMany : Bool) : Bool :=
  includes msg "Too Many Requests" || includes msg "rate limit" || urlTooMany

/-- `processApplicationWithBrowser(country, application, browserInstance)`
(src/server.js lines 711-784): on a completed run, a found slot produces
the `SLOTS_FOUND` side effects and, when `auto_book` is set and the
booking succeeded, the `BOOKING_SUCCESS` side effects.  A thrown error is
caught inside this function: a rate-limit error marks the browser rate
limited (with its `BROWSER_RATE_LIMITED` activity entry, application id
`null`) and returns; any other error is only written to the console.  No
error escapes to the caller. -/
def processApplicationWithBrowser (country : String) (app : AppRec) (bIdx : Nat)
    (res : CheckResult) (pool : List SBrowser) (now : Int) : List Event × List SBrowser :=
  match res with
  | .ok slotsFound bookingSuccess =>
    if slotsFound then
      let evs := [Event.incSlotsFound app.id,
                  Event.activity (some app.id) country "SLOTS_FOUND" "slots found",
                  Event.notified app.id "slots_found"]
      if app.autoBook && bookingSuccess then
        (evs ++ [Event.markCompleted app.id,
                 Event.activity (some app.id) country "BOOKING_SUCCESS" "booked",
                 Event.notified app.id "booking_success"], pool)
      else (evs, pool)
    else ([], pool)
  | .err msg urlTooMany =>
    if isRateLimitError msg urlTooMany then
      ([Event.activity none country "BROWSER_RATE_LIMITED" "cooldown"],
        markBrowserRateLimited pool bIdx now)
    else ([Event.consoleError msg], pool)

/-- `processCountryApplicationsWithRotation(country, applications)`
(src/server.js lines 683-709): ordered iteration over the batch.  Each
iteration acquires a browser (`continue` when the pool is empty and none
is returned), runs the application, then calls
`db.incrementAttempts(app.id)`.  The `try/catch` around the iteration
would log a `PROCESSING_ERROR` activity entry, but since
`processApplicationWithBrowser` catches its own errors and the modelled
persistence calls are total, the catch is unreachable here, exactly as in
the source for errors raised by the browser run. -/
def processCountryApplicationsWithRotation (country : String)
    (apps : List (AppRec × CheckResult)) (pool : List SBrowser) (now : Int) :
    List Event × List SBrowser :=
  match apps with
  | [] => ([], pool)
  | (app, res) :: rest =>
    match getNextBrowser pool now with
    | (none, pool1) => processCountryApplicationsWithRotation country rest pool1 now
    | (some b, pool1) =>
      let step := processApplicationWithBrowser country app b.index res pool1 now
      let rest' := processCountryApplicationsWithRotation country rest step.2 now
      (step.1 ++ Event.incAttempts app.id :: rest'.1, rest'.2)

/-- Whether an event is an `incrementAttempts` call for `appId`. -/
def isIncAttempts (appId : Nat) : Event → Bool
  | .incAttempts i => i == appId
  | _ => false

/-- Number of `incrementAttempts(appId)` calls recorded in `evs`. -/
def attemptsOf (evs : List Event) (appId : Nat) : Nat :=
  evs.countP (isIncAttempts appId)

/-- Whether an event is an activity-log entry naming application
`appId`. -/
def isActivityFor (appId : Nat) : Event → Bool
  | .activity (some i) _ _ _ => i == appId
  | _ => false

/-! ## Engine lifecycle (`src/server.js` `start`, `stop`,
`initializeBrowserPool`)

The engine-instance fields read or written by `start`/`stop`:
`isRunning`, `startTime`, `monitorInterval` (modelled as the boolean
`timerActive`), and the per-country browser pools.  Browser creation
outcomes are an input (`createOk i` tells whether
`createStealthBrowser(i)` succeeds). -/

/-- Engine-instance state. -/
structure MonitorState where
  isRunning : Bool
  startTime : Option Int
  timerActive : Bool
  spainPool : List SBrowser
  italyPool : List SBrowser
deriving DecidableEq, Repr

/-- One active application as `start` reads it (id and site key). -/
structure AppInfo where
  id : Nat
  country : String
deriving DecidableEq, Repr

/-- The two errors `start()` can throw. -/
inductive StartError where
  | alreadyRunning
  | noActiveApplications
deriving DecidableEq, Repr

/-- `this.maxBrowsersPerCountry = 3`. -/
def maxBrowsersPerCountry : Nat := 3

/-- `initializeBrowserPool(country)` (src/server.js lines 454-479): tries
to create `maxBrowsersPerCountry` browsers; a failed creation is logged
and skipped — the loop continues, the pool just stays smaller, and no
error is raised even if every creation fails. -/
def initializeBrowserPool (createOk : Nat → Bool) : List SBrowser :=
  (List.range maxBrowsersPerCountry).filterMap (fun i =>
    if createOk i then some ⟨i, 0, false, 0⟩ else none)

/-- `start()` (src/server.js lines 390-423): throws `alreadyRunning` when
the running flag is set; otherwise sets `isRunning = true` and
`startTime` FIRST, then fetches the active applications and throws
`noActiveApplications` when there are none — the mutations survive the
throw.  Otherwise each country with ≥1 application gets its pool
initialized (pushes onto the existing array) and the monitoring timer is
started.  The returned pair is the engine state as left behind plus the
thrown error, if any. -/
def start (s : MonitorState) (activeApps : List AppInfo)
    (okSpain okItaly : Nat → Bool) (now : Int) : MonitorState × Option StartError :=
  if s.isRunning then (s, some .alreadyRunning)
  else if activeApps.isEmpty then
    ({ s with isRunning := true, startTime := some now }, some .noActiveApplications)
  else
    ({ isRunning := true
       startTime := some now
       timerActive := true
       spainPool :=
         if (activeApps.filter (fun a => a.country == "spain")).isEmpty then s.spainPool
         else s.spainPool ++ initializeBrowserPool okSpain
       italyPool :=
         if (activeApps.filter (fun a => a.country == "italy")).isEmpty then s.italyPool
         else s.italyPool ++ initializeBrowserPool okItaly }, none)

/-- `stop()` (src/server.js lines 425-451): `if (!this.isRunning) return`
makes a stop on a non-running engine a pure no-op; otherwise the running
flag is cleared, the interval timer cancelled, every browser of every
pool closed (errors during `browser.close()` are caught, so `stop` never
throws), and the pools emptied.  The second component lists the leases
that were closed by the call. -/
def stop (s : MonitorState) : MonitorState × List SBrowser :=
  if !s.isRunning then (s, [])
  else
    ({ s with isRunning := false, timerActive := false, spainPool := [], italyPool := [] },
      s.spainPool ++ s.italyPool)

/-! ## `checkAppointmentSlots` — the two Driver variants

Inputs that stand for the I/O steps of one slot check: whether navigation
to the appointment URL throws, the navigated page content (the rotation
variant inspects it for throttling markers; the universal variant never
does), whether the dropdown `page.select` calls throw (both variants
catch those inside and continue), whether `page.evaluate` throws, and the
slot-indicator fixture present at evaluation time. -/

/-- The observable I/O of one `checkAppointmentSlots` run. -/
structure CheckRun where
  navFails : Bool
  content : String
  visaSelectFails : Bool
  centerSelectFails : Bool
  evalFails : Bool
  fixture : List SlotElement
deriving DecidableEq, Repr

/-- The throttling-marker test run on page content (src/server.js
lines 861-865): `'Too Many Requests'`, `'rate limit'` or
`'unusual traffic'`. -/
def throttledContent (content : String) : Bool :=
  includes content "Too Many Requests" || includes content "rate limit" ||
    includes content "unusual traffic"

/-- `checkAppointmentSlots` of the rotation variant (src/server.js
lines 850-917): navigation failure, a throttling marker in the page
content, and an evaluation failure are all rethrown by the catch block
(`throw error`); dropdown selection failures are caught by the inner
`try/catch` and tolerated, so they do not affect the result. -/
def checkAppointmentSlotsRotation (r : CheckRun) : Except String Bool :=
  if r.navFails then .error "Navigation timeout exceeded"
  else if throttledContent r.content then .error "Too Many Requests detected on appointment page"
  else if r.evalFails then .error "Evaluation failed: frame detached"
  else .ok (slotsAvailable r.fixture)

/-- `checkAppointmentSlots` of the universal variant
(src/visa-monitor.js lines 496-558): same step structure, but the page
content is never inspected for throttling markers, and the catch block
`return false`s instead of rethrowing — no error escapes this function.
Dropdown selection failures are caught by the inner `try/catch` and
tolerated, exactly as in the rotation variant. -/
def checkAppointmentSlotsUniversal (r : CheckRun) : Except String Bool :=
  if r.navFails then .ok false
  else if r.evalFails then .ok false
  else .ok (slotsAvailable r.fixture)

/-! ## Concrete fixtures used by the claim theorems below -/

/-- A fixture element whose class carries the "no slots" marker but whose
text carries the "book" availability marker. -/
def noSlotsClassElem : SlotElement := ⟨"book", "no slots", false, false⟩

/-- A two-lease pool with both leases idle, lease 1 least recently
used. -/
def poolC3 : List UBrowser := [⟨0, 5, false⟩, ⟨1, 2, false⟩]

/-- A freshly created lease: index 0, never used, not rate limited. -/
def initialBrowser : SBrowser := ⟨0, 0, false, 0⟩

/-- A freshly constructed engine: not running, no timer, empty pools. -/
def freshEngine : MonitorState := ⟨false, none, false, [], []⟩

/-- Browser-creation oracle under which every creation succeeds. -/
def allCreationsOk : Nat → Bool := fun _ => true

/-- Browser-creation oracle under which every creation fails. -/
def noCreationsOk : Nat → Bool := fun _ => false

/-- Browser-creation oracle under which only creation 0 succeeds. -/
def oneCreationOk : Nat → Bool := fun i => i == 0

/-- A running engine holding one spain lease. -/
def runningEngine : MonitorState := ⟨true, some 0, true, [initialBrowser], []⟩

/-- A check run where the visa-type dropdown selection throws but
navigation and evaluation succeed over a bookable fixture. -/
def dropdownFailRun : CheckRun := ⟨false, "", true, false, false, [⟨"Book now", "slot", false, false⟩]⟩

/-- A check run whose navigation to the appointment URL times out. -/
def navFailRun : CheckRun := ⟨true, "", false, false, false, []⟩

/-- A check run whose navigated page content carries the throttling
marker. -/
def throttledRun : CheckRun := ⟨false, "Too Many Requests", false, false, false, []⟩

/-! ## Least-key selection lemmas -/

theorem selectMinBy_foldl_mem {α : Type} (key : α → Int) (xs : List α) (b : α) :
    xs.foldl (fun best c => if key c < key best then c else best) b = b ∨
      xs.foldl (fun best c => if key c < key best then c else best) b ∈ xs := by
  induction xs generalizing b with
  | nil => exact Or.inl rfl
  | cons c xs ih =>
    simp only [List.foldl_cons]
    rcases ih (if key c < key b then c else b) with h | h
    · rw [h]
      by_cases hc : key c < key b
      · simp [hc]
      · simp [hc]
    · exact Or.inr (List.mem_cons_of_mem _ h)

theorem selectMinBy_foldl_le {α : Type} (key : α → Int) (xs : List α) (b : α) :
    key (xs.foldl (fun best c => if key c < key best then c else best) b) ≤ key b ∧
      ∀ c ∈ xs, key (xs.foldl (fun best c => if key c < key best then c else best) b) ≤ key c := by
  induction xs generalizing b with
  | nil => exact ⟨le_refl _, by simp⟩
  | cons c xs ih =>
    simp only [List.foldl_cons]
    have h := ih (if key c < key b then c else b)
    have hb : key (if key c < key b then c else b) ≤ key b := by
      by_cases hc : key c < key b
      · simp [hc]; exact le_of_lt hc
      · simp [hc]
    have hc' : key (if key c < key b then c else b) ≤ key c := by
      by_cases hc : key c < key b
      · simp [hc]
      · simp [hc]; exact le_of_not_lt hc
    refine ⟨le_trans h.1 hb, ?_⟩
    intro d hd
    rcases List.mem_cons.mp hd with rfl | hd
    · exact le_trans h.1 hc'
    · exact h.2 d hd

theorem selectMinBy_mem {α : Type} (key : α → Int) (l : List α) (x : α)
    (h : selectMinBy key l = some x) : x ∈ l := by
  cases l with
  | nil => simp [selectMinBy] at h
  | cons a xs =>
    simp only [selectMinBy, Option.some.injEq] at h
    rcases selectMinBy_foldl_mem key xs a with h' | h'
    · rw [← h, h']; exact List.mem_cons_self _ _
    · rw [← h]; exact List.mem_cons_of_mem _ h'

theorem selectMinBy_le {α : Type} (key : α → Int) (l : List α) (x : α)
    (h : selectMinBy key l = some x) : ∀ c ∈ l, key x ≤ key c := by
  cases l with
  | nil => simp [selectMinBy] at h
  | cons a xs =>
    simp only [selectMinBy, Option.some.injEq] at h
    intro c hc
    rcases List.mem_cons.mp hc with rfl | hc
    · rw [← h]; exact (selectMinBy_foldl_le key xs c).1
    · rw [← h]; exact (selectMinBy_foldl_le key xs a).2 c hc

theorem selectMinBy_isSome {α : Type} (key : α → Int) (l : List α) (h : l ≠ []) :
    ∃ x, selectMinBy key l = some x := by
  cases l with
  | nil => exact absurd rfl h
  | cons a xs => exact ⟨_, rfl⟩

/-! ## Claim C1 -/

/-- C1 counterexample.  First half: in the fixture `[noSlotsClassElem]`
every element carries an "unavailable"/"no slots" marker in its
text/class (the claim therefore requires `checkSlots` to return `false`),
yet the code returns `true` — the `page.evaluate` callback never looks
for `'no slots'` in the class list, only in the text.  Second half: the
element with empty text and class `"available"` satisfies all the
claim's qualifying conditions (the availability marker may sit in
text/class), yet the code returns `false` on it — the callback requires
the availability marker in the TEXT. -/
theorem checkSlots_claim_counterexample :
    ([noSlotsClassElem].all
        (fun e => (e.disabled || e.hasDisabledAttr) || carriesUnavailableMarker e) = true
      ∧ slotsAvailable [noSlotsClassElem] = true)
    ∧ (claimQualifies ⟨"", "available", false, false⟩ = true
      ∧ slotsAvailable [⟨"", "available", false, false⟩] = false) := by
  refine ⟨⟨?_, ?_⟩, ?_, ?_⟩ <;> decide

/-- C1 amended: `checkSlots` returns `true` iff some slot-indicator
element qualifies, where an element qualifies iff it is not disabled, its
TEXT contains none of "no slots"/"unavailable"/"not available", its CLASS
contains neither "disabled" nor "unavailable", and its TEXT contains an
availability marker ("available"/"book"/"select"); consequently a fixture
whose elements are all disabled or carry one of those markers in the
checked position yields `false`, and a fixture with at least one
qualifying element yields `true`. -/
theorem checkSlots_spec :
    (∀ f, slotsAvailable f = true ↔ ∃ e ∈ f, slotQualifies e = true)
    ∧ (∀ e, slotQualifies e = true ↔
        (e.disabled || e.hasDisabledAttr) = false
        ∧ includes (lowerStr e.textContent) "no slots" = false
        ∧ includes (lowerStr e.textContent) "unavailable" = false
        ∧ includes (lowerStr e.textContent) "not available" = false
        ∧ includes (lowerStr e.className) "disabled" = false
        ∧ includes (lowerStr e.className) "unavailable" = false
        ∧ (includes (lowerStr e.textContent) "available"
            || includes (lowerStr e.textContent) "book"
            || includes (lowerStr e.textContent) "select") = true)
    ∧ (∀ f, (∀ e ∈ f, (e.disabled || e.hasDisabledAttr) = true
          ∨ includes (lowerStr e.textContent) "unavailable" = true
          ∨ includes (lowerStr e.textContent) "no slots" = true
          ∨ includes (lowerStr e.className) "unavailable" = true) →
        slotsAvailable f = false)
    ∧ (∀ f e, e ∈ f → slotQualifies e = true → slotsAvailable f = true) := by
  refine ⟨?_, ?_, ?_, ?_⟩
  · intro f
    simp [slotsAvailable, List.any_eq_true]
  · intro e
    simp only [slotQualifies, Bool.and_eq_true, Bool.not_eq_true']
    tauto
  · intro f hf
    simp only [slotsAvailable, List.any_eq_false]
    intro e he
    rcases hf e he with h | h | h | h <;>
      simp [slotQualifies, h]
  · intro f e he hq
    simp only [slotsAvailable, List.any_eq_true]
    exact ⟨e, he, hq⟩

/-- Witness for `checkSlots_spec` at concrete fixtures: an all-blocked
fixture evaluates to `false` and a fixture with a clean bookable element
evaluates to `true`. -/
theorem checkSlots_spec_witness :
    slotsAvailable [⟨"No slots available", "slot", false, false⟩,
        ⟨"Available", "slot", true, false⟩] = false
      ∧ slotsAvailable [⟨"Select a date", "calendar-day", false, false⟩] = true := by
  constructor
  · exact checkSlots_spec.2.2.1 _ (by decide)
  · exact checkSlots_spec.2.2.2 _ ⟨"Select a date", "calendar-day", false, false⟩
      (by decide) (by decide)

/-! ## Claim C3 -/

/-- Normal-path characterization of `getAvailableBrowser`: with at least
one not-in-use lease, the call picks an idle lease of minimal `lastUsed`,
returns it updated, and rewrites the pool accordingly. -/
theorem getAvailableBrowser_of_idle (pool : List UBrowser) (now : Int)
    (hidle : ∃ b ∈ pool, b.inUse = false) :
    ∃ m ∈ pool, m.inUse = false
      ∧ (∀ c ∈ pool, c.inUse = false → m.lastUsed ≤ c.lastUsed)
      ∧ (getAvailableBrowser pool now).1 = some { m with lastUsed := now, inUse := true }
      ∧ (getAvailableBrowser pool now).2 =
          pool.map (fun c =>
            if c.index == m.index then { m with lastUsed := now, inUse := true } else c) := by
  obtain ⟨b, hb, hbu⟩ := hidle
  have hbav : b ∈ pool.filter (fun b => !b.inUse) :=
    List.mem_filter.mpr ⟨hb, by simp [hbu]⟩
  have havne : pool.filter (fun b => !b.inUse) ≠ [] := List.ne_nil_of_mem hbav
  obtain ⟨m, hm⟩ := selectMinBy_isSome (fun b => b.lastUsed) _ havne
  have hmav : m ∈ pool.filter (fun b => !b.inUse) := selectMinBy_mem _ _ _ hm
  have hmpool : m ∈ pool := (List.mem_filter.mp hmav).1
  have hmu : m.inUse = false := by
    have := (List.mem_filter.mp hmav).2
    simpa using this
  refine ⟨m, hmpool, hmu, ?_, ?_, ?_⟩
  · intro c hc hcu
    exact selectMinBy_le _ _ _ hm c (List.mem_filter.mpr ⟨hc, by simp [hcu]⟩)
  · simp only [getAvailableBrowser]
    rw [if_neg (by simpa [List.isEmpty_iff] using havne), hm]
  · simp only [getAvailableBrowser]
    rw [if_neg (by simpa [List.isEmpty_iff] using havne), hm]

/-- C3 counterexample: the acquired lease IS returned by a subsequent
`acquire` before `release` once no lease is Idle.  With the one-lease
pool `[⟨0, 0, false⟩]`, the first acquire (made while the lease is Idle)
returns lease 0 and marks it InUse; a second acquire on the resulting
pool, with no `release` in between, returns the very same still-InUse
lease — `getAvailableBrowser`'s all-busy branch
(src/visa-monitor.js lines 302-305) hands out the least-recently-used
lease without waiting for release. -/
theorem acquire_busy_counterexample :
    (getAvailableBrowser [(⟨0, 0, false⟩ : UBrowser)] 5).1 = some ⟨0, 5, true⟩
      ∧ (getAvailableBrowser [(⟨0, 0, false⟩ : UBrowser)] 5).2 = [⟨0, 5, true⟩]
      ∧ (getAvailableBrowser [(⟨0, 5, true⟩ : UBrowser)] 6).1 = some ⟨0, 5, true⟩
      ∧ (⟨0, 5, true⟩ : UBrowser).inUse = true := by
  refine ⟨?_, ?_, ?_, ?_⟩ <;> decide

/-- C3 amended: for an `acquire` call made while at least one lease of
the pool is Idle (`inUse = false`), the returned lease is an Idle lease
of minimal `lastUsedAt` and is marked InUse in the resulting pool; it is
not returned by any subsequent `acquire` made while at least one lease is
Idle until `release` clears its flag — but when NO lease is Idle, a
subsequent `acquire` returns the least-recently-used lease even though it
is still InUse (best-effort degrade), so exclusivity is not maintained in
the all-busy case. -/
theorem acquire_idle_spec (pool : List UBrowser) (now : Int)
    (hidle : ∃ b ∈ pool, b.inUse = false) :
    ∃ m ∈ pool, m.inUse = false
      ∧ (∀ c ∈ pool, c.inUse = false → m.lastUsed ≤ c.lastUsed)
      ∧ (getAvailableBrowser pool now).1 = some { m with lastUsed := now, inUse := true }
      ∧ { m with lastUsed := now, inUse := true } ∈ (getAvailableBrowser pool now).2
      ∧ (∀ (q : List UBrowser) (t : Int),
          (∀ c ∈ q, c.index = m.index → c.inUse = true) →
          (∃ c ∈ q, c.inUse = false) →
          ∀ r, (getAvailableBrowser q t).1 = some r → r.index ≠ m.index)
      ∧ (∀ (q : List UBrowser) (t : Int), q ≠ [] →
          (∀ c ∈ q, c.inUse = true) →
          ∃ m' ∈ q, (getAvailableBrowser q t).1 = some m' ∧ m'.inUse = true
            ∧ ∀ c ∈ q, m'.lastUsed ≤ c.lastUsed) := by
  obtain ⟨m, hmpool, hmu, hmin, hres, hpool⟩ := getAvailableBrowser_of_idle pool now hidle
  refine ⟨m, hmpool, hmu, hmin, hres, ?_, ?_, ?_⟩
  · rw [hpool]
    refine List.mem_map.mpr ⟨m, hmpool, ?_⟩
    simp
  · intro q t hall hq r hr
    obtain ⟨m', hm'q, hm'u, _, hres', _⟩ := getAvailableBrowser_of_idle q t hq
    rw [hres'] at hr
    have hrm : r = { m' with lastUsed := t, inUse := true } := (Option.some.inj hr).symm
    intro hcontra
    have hidx : m'.index = m.index := by rw [hrm] at hcontra; exact hcontra
    have := hall m' hm'q hidx
    rw [this] at hm'u
    exact Bool.true_eq_false.mp hm'u
  · intro q t hqne hbusy
    have hfil : q.filter (fun b => !b.inUse) = [] :=
      List.filter_eq_nil_iff.mpr (by intro b hb; simp [hbusy b hb])
    obtain ⟨m', hm'⟩ := selectMinBy_isSome (fun b => b.lastUsed) q hqne
    refine ⟨m', selectMinBy_mem _ _ _ hm', ?_,
      hbusy _ (selectMinBy_mem _ _ _ hm'), selectMinBy_le _ _ _ hm'⟩
    simp only [getAvailableBrowser, hfil]
    simp [hm']

/-- Witness for `acquire_idle_spec` on a concrete two-lease pool. -/
theorem acquire_idle_spec_witness :
    (∃ b ∈ poolC3, b.inUse = false)
    ∧ (∃ m ∈ poolC3, m.inUse = false
      ∧ (∀ c ∈ poolC3, c.inUse = false → m.lastUsed ≤ c.lastUsed)
      ∧ (getAvailableBrowser poolC3 10).1 = some { m with lastUsed := 10, inUse := true }
      ∧ { m with lastUsed := 10, inUse := true } ∈ (getAvailableBrowser poolC3 10).2
      ∧ (∀ (q : List UBrowser) (t : Int),
          (∀ c ∈ q, c.index = m.index → c.inUse = true) →
          (∃ c ∈ q, c.inUse = false) →
          ∀ r, (getAvailableBrowser q t).1 = some r → r.index ≠ m.index)
      ∧ (∀ (q : List UBrowser) (t : Int), q ≠ [] →
          (∀ c ∈ q, c.inUse = true) →
          ∃ m' ∈ q, (getAvailableBrowser q t).1 = some m' ∧ m'.inUse = true
            ∧ ∀ c ∈ q, m'.lastUsed ≤ c.lastUsed)) :=
  ⟨⟨⟨1, 2, false⟩, by decide, rfl⟩,
    acquire_idle_spec poolC3 10 ⟨⟨1, 2, false⟩, by decide, rfl⟩⟩

/-! ## Claim C4 -/

/-- C4 counterexample: a lease marked rate limited at time `T = 0` is
still excluded from the preferred candidates at time exactly
`T + cooldownPeriod`, because the code tests
`now - rateLimitedUntil > cooldownPeriod` strictly; the claim requires it
to be eligible again at (not only after) `T + C`. -/
theorem cooldown_boundary_counterexample :
    markBrowserRateLimited [initialBrowser] 0 0 = [⟨0, 0, true, 0⟩]
      ∧ preferredCandidates (markBrowserRateLimited [initialBrowser] 0 0) cooldownPeriod = [] := by
  constructor <;> decide

/-- C4 amended: a lease rate limited at time `T` (the code stores `T`
itself in `rateLimitedUntil` and adds the fixed ten-minute window at
acquire time) is not among the preferred candidates of any `acquire` at a
time `t ≤ T + cooldownPeriod`, and is eligible again as a normal
candidate at every time strictly after `T + cooldownPeriod`. -/
theorem markRateLimited_cooldown_spec (pool : List SBrowser) (idx : Nat) (T t : Int) :
    (t ≤ T + cooldownPeriod →
      ∀ c ∈ preferredCandidates (markBrowserRateLimited pool idx T) t, c.index ≠ idx)
    ∧ ((∃ b ∈ pool, b.index = idx) → T + cooldownPeriod < t →
      ∃ c ∈ preferredCandidates (markBrowserRateLimited pool idx T) t, c.index = idx) := by
  constructor
  · intro hle c hc hcidx
    obtain ⟨hcm, hcav⟩ := List.mem_filter.mp hc
    obtain ⟨d, hd, hdc⟩ := List.mem_map.mp hcm
    obtain ⟨b, hb, hbd⟩ := List.mem_map.mp hd
    have hnotyet : ¬ (t - T > cooldownPeriod) := by omega
    by_cases hbi : b.index = idx
    · have hdval : d = { b with rateLimited := true, rateLimitedUntil := T } := by
        rw [← hbd]; simp [hbi]
      have hcd : c = d := by
        rw [← hdc, hdval, refreshBrowser]
        simp [hnotyet]
      rw [hcd, hdval] at hcav
      simp [sbAvailable, hnotyet] at hcav
    · have hdval : d = b := by rw [← hbd]; simp [hbi]
      have : c.index = b.index := by
        rw [← hdc, hdval, refreshBrowser]
        split <;> rfl
      rw [this] at hcidx
      exact hbi hcidx
  · rintro ⟨b, hb, hbidx⟩ hlt
    have hfired : t - T > cooldownPeriod := by omega
    refine ⟨{ b with rateLimited := false, rateLimitedUntil := 0, lastUsed := b.lastUsed }, ?_, hbidx⟩
    refine List.mem_filter.mpr ⟨?_, by simp [sbAvailable]⟩
    refine List.mem_map.mpr ⟨{ b with rateLimited := true, rateLimitedUntil := T }, ?_, ?_⟩
    · exact List.mem_map.mpr ⟨b, hb, by simp [hbidx]⟩
    · rw [refreshBrowser]
      simp [hfired]

/-- Witness for `markRateLimited_cooldown_spec`: lease 0 rate limited at
`T = 0` is eligible again one millisecond after the cooldown window. -/
theorem markRateLimited_cooldown_spec_witness :
    (∃ b ∈ [initialBrowser], b.index = 0)
    ∧ (cooldownPeriod + 1 ≤ (0 : Int) + cooldownPeriod →
        ∀ c ∈ preferredCandidates (markBrowserRateLimited [initialBrowser] 0 0) (cooldownPeriod + 1),
          c.index ≠ 0)
    ∧ (∃ c ∈ preferredCandidates (markBrowserRateLimited [initialBrowser] 0 0) (cooldownPeriod + 1),
        c.index = 0) :=
  ⟨⟨initialBrowser, by decide, rfl⟩,
    (markRateLimited_cooldown_spec [initialBrowser] 0 0 (cooldownPeriod + 1)).1,
    (markRateLimited_cooldown_spec [initialBrowser] 0 0 (cooldownPeriod + 1)).2
      ⟨initialBrowser, by decide, rfl⟩ (by decide)⟩

/-! ## Claim C5 -/

/-- C5: `getNextBrowser` never fails on a non-empty pool, and whenever no
lease is available (every lease rate limited with its cooldown not yet
elapsed) it returns the rate-limited lease with the smallest
`rateLimitedUntil`, leaving the pool unchanged. -/
theorem getNextBrowser_degraded_spec (pool : List SBrowser) (now : Int)
    (hne : pool ≠ [])
    (hall : ∀ b ∈ pool, sbAvailable b now = false) :
    (∃ r ∈ pool, (getNextBrowser pool now).1 = some r ∧ r.rateLimited = true
        ∧ ∀ b ∈ pool, r.rateLimitedUntil ≤ b.rateLimitedUntil)
    ∧ (getNextBrowser pool now).2 = pool
    ∧ ∀ (q : List SBrowser) (t : Int), q ≠ [] →
        ∃ r, (getNextBrowser q t).1 = some r := by
  have hrefresh : ∀ b ∈ pool, refreshBrowser b now = b := by
    intro b hb
    have h := hall b hb
    simp only [sbAvailable, Bool.or_eq_false_iff, Bool.not_eq_false',
      decide_eq_false_iff_not] at h
    rw [refreshBrowser]
    simp [h.1, h.2]
  have hmap : pool.map (fun b => refreshBrowser b now) = pool := by
    rw [List.map_congr_left hrefresh, List.map_id']
  have hfil : pool.filter (fun b => sbAvailable b now) = [] :=
    List.filter_eq_nil_iff.mpr (by intro b hb; simp [hall b hb])
  have hval : getNextBrowser pool now =
      (selectMinBy (fun b => b.rateLimitedUntil) pool, pool) := by
    rw [getNextBrowser]
    rw [if_neg (by simpa [List.isEmpty_iff] using hne)]
    simp only [hmap, hfil]
    rfl
  obtain ⟨r, hr⟩ := selectMinBy_isSome (fun b => b.rateLimitedUntil) pool hne
  have hrmem : r ∈ pool := selectMinBy_mem _ _ _ hr
  have hrrl : r.rateLimited = true := by
    have h := hall r hrmem
    simp only [sbAvailable, Bool.or_eq_false_iff, Bool.not_eq_false'] at h
    exact h.1
  refine ⟨⟨r, hrmem, by rw [hval]; exact hr, hrrl,
      selectMinBy_le _ _ _ hr⟩, by rw [hval], ?_⟩
  intro q t hq
  rw [getNextBrowser]
  rw [if_neg (by simpa [List.isEmpty_iff] using hq)]
  by_cases hav : ((q.map (fun b => refreshBrowser b t)).filter (fun b => sbAvailable b t)).isEmpty
  · simp only [hav, if_true]
    have hq1 : q.map (fun b => refreshBrowser b t) ≠ [] := by
      simpa [List.map_eq_nil_iff] using hq
    obtain ⟨x, hx⟩ := selectMinBy_isSome (fun b => b.rateLimitedUntil) _ hq1
    exact ⟨x, by simp [hx]⟩
  · simp only [hav, if_false]
    have havne : (q.map (fun b => refreshBrowser b t)).filter (fun b => sbAvailable b t) ≠ [] := by
      simpa [List.isEmpty_iff] using hav
    obtain ⟨x, hx⟩ := selectMinBy_isSome (fun b => b.lastUsed) _ havne
    rw [hx]
    exact ⟨_, rfl⟩

/-- Witness for `getNextBrowser_degraded_spec`: the claim's pool-size-1
same-tick scenario — the only lease is marked rate limited at time 1000
(app1's check signalled throttling) and the very next `acquire` at the
same time still returns that lease. -/
theorem getNextBrowser_degraded_spec_witness :
    (markBrowserRateLimited [initialBrowser] 0 1000 ≠ []
      ∧ ∀ b ∈ markBrowserRateLimited [initialBrowser] 0 1000, sbAvailable b 1000 = false)
    ∧ (∃ r ∈ markBrowserRateLimited [initialBrowser] 0 1000,
        (getNextBrowser (markBrowserRateLimited [initialBrowser] 0 1000) 1000).1 = some r
          ∧ r.rateLimited = true
          ∧ ∀ b ∈ markBrowserRateLimited [initialBrowser] 0 1000,
              r.rateLimitedUntil ≤ b.rateLimitedUntil) :=
  ⟨⟨by decide, by decide⟩,
    (getNextBrowser_degraded_spec (markBrowserRateLimited [initialBrowser] 0 1000) 1000
      (by decide) (by decide)).1⟩

/-! ## Batch-loop helper lemmas -/

/-- On a non-empty pool `getNextBrowser` always returns a browser, and
the pool it leaves behind has the same size. -/
theorem getNextBrowser_some (pool : List SBrowser) (now : Int) (hne : pool ≠ []) :
    ∃ r q, getNextBrowser pool now = (some r, q) ∧ q.length = pool.length := by
  rw [getNextBrowser]
  rw [if_neg (by simpa [List.isEmpty_iff] using hne)]
  by_cases hav : ((pool.map (fun b => refreshBrowser b now)).filter
      (fun b => sbAvailable b now)).isEmpty
  · simp only [hav, if_true]
    have hp1 : pool.map (fun b => refreshBrowser b now) ≠ [] := by
      simpa [List.map_eq_nil_iff] using hne
    obtain ⟨x, hx⟩ := selectMinBy_isSome (fun b => b.rateLimitedUntil) _ hp1
    exact ⟨x, _, by rw [hx], by simp⟩
  · simp only [hav, if_false]
    have havne : (pool.map (fun b => refreshBrowser b now)).filter
        (fun b => sbAvailable b now) ≠ [] := by
      simpa [List.isEmpty_iff] using hav
    obtain ⟨x, hx⟩ := selectMinBy_isSome (fun b => b.lastUsed) _ havne
    rw [hx]
    exact ⟨_, _, rfl, by simp⟩

/-- `processApplicationWithBrowser` never changes the pool size (rate
limiting only rewrites one entry in place). -/
theorem processApplicationWithBrowser_snd_length (country : String) (app : AppRec)
    (bIdx : Nat) (res : CheckResult) (pool : List SBrowser) (now : Int) :
    ((processApplicationWithBrowser country app bIdx res pool now).2).length = pool.length := by
  rcases res with ⟨sf, bs⟩ | ⟨m, u⟩ <;>
    simp only [processApplicationWithBrowser] <;>
    split <;> (try split) <;>
    simp [markBrowserRateLimited]

/-- `processApplicationWithBrowser` itself never calls
`incrementAttempts` — the increment happens in the batch loop, after the
call returns. -/
theorem processApplicationWithBrowser_attempts (country : String) (app : AppRec)
    (bIdx : Nat) (res : CheckResult) (pool : List SBrowser) (now : Int) (i : Nat) :
    attemptsOf (processApplicationWithBrowser country app bIdx res pool now).1 i = 0 := by
  rcases res with ⟨sf, bs⟩ | ⟨m, u⟩ <;>
    simp only [processApplicationWithBrowser] <;>
    split <;> (try split) <;>
    simp [attemptsOf, isIncAttempts]

/-- Every activity-log entry emitted by `processApplicationWithBrowser`
names either the processed application or no application at all. -/
theorem processApplicationWithBrowser_no_foreign_activity (country : String) (app : AppRec)
    (bIdx : Nat) (res : CheckResult) (pool : List SBrowser) (now : Int) (i : Nat)
    (h : i ≠ app.id) :
    ∀ e ∈ (processApplicationWithBrowser country app bIdx res pool now).1,
      isActivityFor i e = false := by
  have happ : (app.id == i) = false := by
    simp only [beq_eq_false_iff_ne, ne_eq]
    exact fun hc => h hc.symm
  have hall : ((processApplicationWithBrowser country app bIdx res pool now).1.all
      (fun e => !(isActivityFor i e))) = true := by
    rcases res with ⟨sf, bs⟩ | ⟨m, u⟩ <;>
      simp only [processApplicationWithBrowser] <;>
      split <;> (try split) <;>
      simp [isActivityFor, happ]
  intro e he
  have := List.all_eq_true.mp hall e he
  simpa using this

/-! ## Claim C7 -/

/-- C7: with a non-empty browser pool, one tick's batch increments the
`attempts` counter of every processed application exactly once — the
number of `incrementAttempts(i)` calls equals the number of occurrences
of `i` in the batch, whatever each application's check outcome was
(slots, no slots, generic error, or throttling). -/
theorem attempts_exactly_once (country : String) (apps : List (AppRec × CheckResult))
    (pool : List SBrowser) (now : Int) (hne : pool ≠ []) (i : Nat) :
    attemptsOf (processCountryApplicationsWithRotation country apps pool now).1 i =
      apps.countP (fun p => p.1.id == i) := by
  induction apps generalizing pool with
  | nil => simp [processCountryApplicationsWithRotation, attemptsOf]
  | cons p rest ih =>
    obtain ⟨app, res⟩ := p
    obtain ⟨r, q, hrq, hlen⟩ := getNextBrowser_some pool now hne
    rw [processCountryApplicationsWithRotation, hrq]
    have hq : (processApplicationWithBrowser country app r.index res q now).2 ≠ [] := by
      have h1 := processApplicationWithBrowser_snd_length country app r.index res q now
      rw [hlen] at h1
      intro hc
      rw [hc] at h1
      exact hne (List.eq_nil_of_length_eq_zero h1.symm)
    simp only [attemptsOf, List.countP_append, List.countP_cons]
    have h0 := processApplicationWithBrowser_attempts country app r.index res q now i
    rw [attemptsOf] at h0
    rw [h0]
    have hih := ih (processApplicationWithBrowser country app r.index res q now).2 hq
    rw [attemptsOf] at hih
    rw [hih]
    have : isIncAttempts i (Event.incAttempts app.id) = (app.id == i) := rfl
    rw [this]
    omega

/-- Witness for `attempts_exactly_once`: a pool of one browser, a batch of
two applications where the first finds slots and the second hits
throttling — each application's counter is incremented exactly once. -/
theorem attempts_exactly_once_witness :
    attemptsOf (processCountryApplicationsWithRotation "spain"
      [(⟨1, false⟩, CheckResult.ok true false), (⟨2, false⟩, CheckResult.err "rate limit" false)]
      [initialBrowser] 0).1 1 = 1
    ∧ attemptsOf (processCountryApplicationsWithRotation "spain"
      [(⟨1, false⟩, CheckResult.ok true false), (⟨2, false⟩, CheckResult.err "rate limit" false)]
      [initialBrowser] 0).1 2 = 1 := by
  constructor
  · have h := attempts_exactly_once "spain"
      [(⟨1, false⟩, CheckResult.ok true false), (⟨2, false⟩, CheckResult.err "rate limit" false)]
      [initialBrowser] 0 (by decide) 1
    rw [h]
    decide
  · have h := attempts_exactly_once "spain"
      [(⟨1, false⟩, CheckResult.ok true false), (⟨2, false⟩, CheckResult.err "rate limit" false)]
      [initialBrowser] 0 (by decide) 2
    rw [h]
    decide

/-! ## Claim C6 -/

/-- C6 counterexample: in the batch `[A, B]` with `A.id = 1`, `B.id = 2`,
where A's check raises a generic error `"boom"`, B is still processed and
its attempt counter incremented — but NO activity-log entry naming A is
produced: the error is caught inside `processApplicationWithBrowser` and
only written to the console, so it never reaches the batch loop's
`PROCESSING_ERROR` logger (A's own attempt counter is even incremented
afterwards). -/
theorem batch_failure_log_counterexample :
    attemptsOf (processCountryApplicationsWithRotation "spain"
        [(⟨1, false⟩, CheckResult.err "boom" false), (⟨2, false⟩, CheckResult.ok false false)]
        [initialBrowser] 0).1 2 = 1
    ∧ ((processCountryApplicationsWithRotation "spain"
        [(⟨1, false⟩, CheckResult.err "boom" false), (⟨2, false⟩, CheckResult.ok false false)]
        [initialBrowser] 0).1.any (isActivityFor 1)) = false
    ∧ Event.consoleError "boom" ∈ (processCountryApplicationsWithRotation "spain"
        [(⟨1, false⟩, CheckResult.err "boom" false), (⟨2, false⟩, CheckResult.ok false false)]
        [initialBrowser] 0).1 := by
  refine ⟨?_, ?_, ?_⟩ <;> decide

/-- C6 amended: in a batch `[A, B]` where A's check raises a generic
(non-throttling) error, the error is caught and recorded on the console
and does not abort the batch: B is still processed with its attempt
counter incremented exactly once (A's attempt counter is incremented as
well, since the error never escapes the per-application handler), but no
activity-log entry naming A is produced. -/
theorem batch_isolation_spec (country : String) (A B : AppRec) (msg : String)
    (resB : CheckResult) (pool : List SBrowser) (now : Int)
    (hne : pool ≠ []) (hmsg : isRateLimitError msg false = false) (hAB : A.id ≠ B.id) :
    attemptsOf (processCountryApplicationsWithRotation country
        [(A, .err msg false), (B, resB)] pool now).1 A.id = 1
      ∧ attemptsOf (processCountryApplicationsWithRotation country
          [(A, .err msg false), (B, resB)] pool now).1 B.id = 1
      ∧ Event.consoleError msg ∈ (processCountryApplicationsWithRotation country
          [(A, .err msg false), (B, resB)] pool now).1
      ∧ ∀ e ∈ (processCountryApplicationsWithRotation country
          [(A, .err msg false), (B, resB)] pool now).1, isActivityFor A.id e = false := by
  obtain ⟨r1, q1, h1, hlen1⟩ := getNextBrowser_some pool now hne
  have hstep1 : processApplicationWithBrowser country A r1.index (.err msg false) q1 now =
      ([Event.consoleError msg], q1) := by
    simp [processApplicationWithBrowser, hmsg]
  have hq1ne : q1 ≠ [] := by
    intro hc
    rw [hc] at hlen1
    exact hne (List.eq_nil_of_length_eq_zero hlen1.symm)
  obtain ⟨r2, q2, h2, hlen2⟩ := getNextBrowser_some q1 now hq1ne
  have hexp : processCountryApplicationsWithRotation country
      [(A, .err msg false), (B, resB)] pool now =
      (Event.consoleError msg :: Event.incAttempts A.id ::
        ((processApplicationWithBrowser country B r2.index resB q2 now).1 ++
          [Event.incAttempts B.id]),
        (processApplicationWithBrowser country B r2.index resB q2 now).2) := by
    simp only [processCountryApplicationsWithRotation, h1, hstep1, h2]
    rfl
  rw [hexp]
  have hBA : (B.id == A.id) = false := by
    simp only [beq_eq_false_iff_ne, ne_eq]
    exact fun hc => hAB hc.symm
  have hAA : (A.id == A.id) = true := by simp
  have hBB : (B.id == B.id) = true := by simp
  have hAstep : attemptsOf (processApplicationWithBrowser country B r2.index resB q2 now).1 A.id = 0 :=
    processApplicationWithBrowser_attempts country B r2.index resB q2 now A.id
  have hBstep : attemptsOf (processApplicationWithBrowser country B r2.index resB q2 now).1 B.id = 0 :=
    processApplicationWithBrowser_attempts country B r2.index resB q2 now B.id
  have hABf : (A.id == B.id) = false := by
    simp only [beq_eq_false_iff_ne, ne_eq]
    exact hAB
  refine ⟨?_, ?_, ?_, ?_⟩
  · rw [attemptsOf] at hAstep ⊢
    simp [List.countP_cons, List.countP_append, isIncAttempts, hAA, hBA, hAstep]
  · rw [attemptsOf] at hBstep ⊢
    simp [List.countP_cons, List.countP_append, isIncAttempts, hBB, hABf, hBstep]
  · exact List.mem_cons_self _ _
  · intro e he
    rcases List.mem_cons.mp he with rfl | he
    · rfl
    rcases List.mem_cons.mp he with rfl | he
    · rfl
    rcases List.mem_append.mp he with he | he
    · exact processApplicationWithBrowser_no_foreign_activity country B r2.index resB q2 now A.id hAB e he
    · rcases List.mem_singleton.mp he with rfl
      rfl

/-- Witness for `batch_isolation_spec` at a concrete batch and pool. -/
theorem batch_isolation_spec_witness :
    attemptsOf (processCountryApplicationsWithRotation "italy"
        [(⟨7, false⟩, .err "frame detached" false), (⟨8, true⟩, .ok true true)]
        [initialBrowser] 5).1 7 = 1
      ∧ attemptsOf (processCountryApplicationsWithRotation "italy"
          [(⟨7, false⟩, .err "frame detached" false), (⟨8, true⟩, .ok true true)]
          [initialBrowser] 5).1 8 = 1
      ∧ Event.consoleError "frame detached" ∈ (processCountryApplicationsWithRotation "italy"
          [(⟨7, false⟩, .err "frame detached" false), (⟨8, true⟩, .ok true true)]
          [initialBrowser] 5).1
      ∧ ∀ e ∈ (processCountryApplicationsWithRotation "italy"
          [(⟨7, false⟩, .err "frame detached" false), (⟨8, true⟩, .ok true true)]
          [initialBrowser] 5).1, isActivityFor 7 e = false :=
  batch_isolation_spec "italy" ⟨7, false⟩ ⟨8, true⟩ "frame detached" (.ok true true)
    [initialBrowser] 5 (by decide) (by decide) (by decide)

/-! ## Claims C2 and C8 — lifecycle -/

/-- C2 counterexample: `start()` on a stopped engine with an empty
active-application list does throw the startup error without creating
leases or starting the timer, but it sets `isRunning = true` (and a start
time) BEFORE the emptiness check, so the failed call does not leave the
engine in the stopped state — contradicting the claim that the running
flag is unchanged. -/
theorem start_empty_apps_counterexample :
    (start freshEngine [] allCreationsOk allCreationsOk 0).2 =
        some StartError.noActiveApplications
      ∧ (start freshEngine [] allCreationsOk allCreationsOk 0).1.isRunning = true
      ∧ (start freshEngine [] allCreationsOk allCreationsOk 0).1.timerActive = false
      ∧ (start freshEngine [] allCreationsOk allCreationsOk 0).1.spainPool = []
      ∧ (start freshEngine [] allCreationsOk allCreationsOk 0).1.italyPool = [] :=
  ⟨rfl, rfl, rfl, rfl, rfl⟩

/-- C2 amended: with an empty active-application list, `start()` fails
immediately with the startup error, creates no leases and starts no
timer, but the failed call leaves the running flag set to `true` (and
records a start time); when the engine is already running, `start()`
fails with the engine state fully unchanged. -/
theorem start_failure_spec (s : MonitorState) (activeApps : List AppInfo)
    (okS okI : Nat → Bool) (now : Int) :
    (s.isRunning = true → start s activeApps okS okI now = (s, some .alreadyRunning))
    ∧ (s.isRunning = false → activeApps = [] →
        start s activeApps okS okI now =
          ({ s with isRunning := true, startTime := some now },
            some .noActiveApplications)) := by
  constructor
  · intro h
    rw [start]
    simp [h]
  · intro h hA
    rw [start]
    simp [h, hA]

/-- Witness for `start_failure_spec` on a fresh engine with no active
applications. -/
theorem start_failure_spec_witness :
    freshEngine.isRunning = false
      ∧ start freshEngine [] allCreationsOk allCreationsOk 3 =
          ({ freshEngine with isRunning := true, startTime := some 3 },
            some StartError.noActiveApplications) :=
  ⟨rfl, (start_failure_spec freshEngine [] allCreationsOk allCreationsOk 3).2 rfl rfl⟩

/-- Length of a guarded `filterMap`: the number of kept elements is the
number of elements satisfying the guard. -/
theorem length_filterMap_guard {α β : Type} (g : α → β) (p : α → Bool) (l : List α) :
    (l.filterMap (fun a => if p a then some (g a) else none)).length = l.countP p := by
  induction l with
  | nil => rfl
  | cons a t ih =>
    by_cases h : p a <;> simp [List.filterMap_cons, List.countP_cons, h, ih]

/-- C8 counterexample: with one active spain application and every
browser creation failing, `start()` completes WITHOUT an error, sets the
running flag, starts the timer, and leaves an empty pool — the source
never checks that `initializeBrowserPool` produced any lease, so
"all lease creations failed" is not a fatal startup error. -/
theorem start_allCreationsFail_counterexample :
    (start freshEngine [⟨1, "spain"⟩] noCreationsOk noCreationsOk 0).2 = none
      ∧ (start freshEngine [⟨1, "spain"⟩] noCreationsOk noCreationsOk 0).1.isRunning = true
      ∧ (start freshEngine [⟨1, "spain"⟩] noCreationsOk noCreationsOk 0).1.timerActive = true
      ∧ (start freshEngine [⟨1, "spain"⟩] noCreationsOk noCreationsOk 0).1.spainPool = []
      ∧ (start freshEngine [⟨1, "spain"⟩] noCreationsOk noCreationsOk 0).1.italyPool = [] :=
  ⟨rfl, rfl, rfl, rfl, rfl⟩

/-- C8 amended: lease-creation failures are never fatal — even when every
creation fails.  On a stopped engine with at least one active
application, `start()` completes without error regardless of the creation
outcomes, sets the running flag and the timer, and each initialized
site's pool receives exactly the successfully created leases (failures
only reduce capacity; there is no retry). -/
theorem start_creationFailures_nonfatal (s : MonitorState) (activeApps : List AppInfo)
    (okS okI : Nat → Bool) (now : Int)
    (hrun : s.isRunning = false) (hne : activeApps ≠ []) :
    (start s activeApps okS okI now).2 = none
      ∧ (start s activeApps okS okI now).1.isRunning = true
      ∧ (start s activeApps okS okI now).1.timerActive = true
      ∧ (activeApps.filter (fun a => a.country == "spain") ≠ [] →
          (start s activeApps okS okI now).1.spainPool =
            s.spainPool ++ initializeBrowserPool okS)
      ∧ (∀ ok : Nat → Bool, (initializeBrowserPool ok).length =
          (List.range maxBrowsersPerCountry).countP ok) := by
  have hAe : activeApps.isEmpty = false := by simpa [List.isEmpty_iff] using hne
  rw [start]
  rw [if_neg (by simp [hrun])]
  rw [if_neg (by simp [hAe])]
  refine ⟨rfl, rfl, rfl, ?_, ?_⟩
  · intro hsp
    have hspe : (activeApps.filter (fun a => a.country == "spain")).isEmpty = false := by
      simpa [List.isEmpty_iff] using hsp
    simp [hspe]
  · intro ok
    exact length_filterMap_guard _ ok _

/-- Witness for `start_creationFailures_nonfatal`: one spain application,
only browser 0 created successfully — `start` succeeds with a
one-lease pool. -/
theorem start_creationFailures_nonfatal_witness :
    (freshEngine.isRunning = false ∧ ([(⟨1, "spain"⟩ : AppInfo)] : List AppInfo) ≠ [])
      ∧ (start freshEngine [⟨1, "spain"⟩] oneCreationOk allCreationsOk 0).2 = none
      ∧ (start freshEngine [⟨1, "spain"⟩] oneCreationOk allCreationsOk 0).1.isRunning = true
      ∧ (start freshEngine [⟨1, "spain"⟩] oneCreationOk allCreationsOk 0).1.timerActive = true :=
  ⟨⟨rfl, by decide⟩,
    (start_creationFailures_nonfatal freshEngine [⟨1, "spain"⟩] oneCreationOk allCreationsOk 0
        rfl (by decide)).1,
    (start_creationFailures_nonfatal freshEngine [⟨1, "spain"⟩] oneCreationOk allCreationsOk 0
        rfl (by decide)).2.1,
    (start_creationFailures_nonfatal freshEngine [⟨1, "spain"⟩] oneCreationOk allCreationsOk 0
        rfl (by decide)).2.2.1⟩

/-! ## Claim C9 -/

/-- C9: `stop()` is idempotent — on a non-running engine it is a pure
no-op that closes nothing and raises nothing (the model is a total
function; the source catches `browser.close()` errors), a second
consecutive `stop()` is always a no-op, and `stop()` on a running engine
clears the running flag, cancels the timer, closes every lease of every
pool and leaves the pools empty. -/
theorem stop_idempotent_spec (s : MonitorState) :
    (s.isRunning = false → stop s = (s, []))
    ∧ stop (stop s).1 = ((stop s).1, [])
    ∧ (s.isRunning = true →
        (stop s).1.isRunning = false ∧ (stop s).1.timerActive = false
          ∧ (stop s).1.spainPool = [] ∧ (stop s).1.italyPool = []
          ∧ (stop s).2 = s.spainPool ++ s.italyPool) := by
  refine ⟨?_, ?_, ?_⟩
  · intro h
    rw [stop]
    simp [h]
  · have h1 : (stop s).1.isRunning = false := by
      rw [stop]
      by_cases h : s.isRunning <;> simp [h]
    rw [stop]
    simp [h1]
  · intro h
    rw [stop]
    simp [h]

/-- Witness for `stop_idempotent_spec` on a concrete running engine. -/
theorem stop_idempotent_spec_witness :
    runningEngine.isRunning = true
      ∧ ((stop runningEngine).1.isRunning = false
        ∧ (stop runningEngine).1.timerActive = false
        ∧ (stop runningEngine).1.spainPool = []
        ∧ (stop runningEngine).1.italyPool = []
        ∧ (stop runningEngine).2 = runningEngine.spainPool ++ runningEngine.italyPool) :=
  ⟨rfl, (stop_idempotent_spec runningEngine).2.2 rfl⟩

/-! ## Claim C10 -/

/-- C10 counterexample: a dropdown selection error is an internal failure
for which the universal `checkAppointmentSlots` does NOT return `false`:
the inner `try/catch` tolerates it and the check proceeds, returning
`true` when a qualifying slot is present. -/
theorem checkSlots_dropdown_counterexample :
    dropdownFailRun.visaSelectFails = true
      ∧ checkAppointmentSlotsUniversal dropdownFailRun = .ok true := by
  exact ⟨rfl, rfl⟩

/-- C10 amended: the universal variant's `checkAppointmentSlots` never
raises; a navigation or evaluation failure makes it return `false`,
indistinguishable at the boolean interface from a genuine no-slots
result; dropdown selection failures are caught inside and do not affect
the result at all; while the rotation (server.js) variant rethrows
navigation, throttling and evaluation errors. -/
theorem checkSlots_variants_error_spec :
    (∀ r, ∃ b, checkAppointmentSlotsUniversal r = .ok b)
    ∧ (∀ r, (r.navFails || r.evalFails) = true →
        checkAppointmentSlotsUniversal r = .ok false)
    ∧ (∀ r r', (r.navFails || r.evalFails) = true → r'.navFails = false →
        r'.evalFails = false → slotsAvailable r'.fixture = false →
        checkAppointmentSlotsUniversal r = checkAppointmentSlotsUniversal r')
    ∧ (∀ r a b, checkAppointmentSlotsUniversal r =
        checkAppointmentSlotsUniversal { r with visaSelectFails := a, centerSelectFails := b })
    ∧ (∀ r, (r.navFails || throttledContent r.content || r.evalFails) = true →
        ∃ e, checkAppointmentSlotsRotation r = .error e) := by
  refine ⟨?_, ?_, ?_, ?_, ?_⟩
  · intro r
    by_cases h1 : r.navFails <;> by_cases h2 : r.evalFails <;>
      simp [checkAppointmentSlotsUniversal, h1, h2]
  · intro r h
    rcases Bool.or_eq_true_iff.mp h with h1 | h2
    · simp [checkAppointmentSlotsUniversal, h1]
    · by_cases h1 : r.navFails <;> simp [checkAppointmentSlotsUniversal, h1, h2]
  · intro r r' h h1 h2 h3
    rcases Bool.or_eq_true_iff.mp h with hf | hf <;>
      by_cases hn : r.navFails <;>
      simp_all [checkAppointmentSlotsUniversal]
  · intro r a b
    by_cases h1 : r.navFails <;> by_cases h2 : r.evalFails <;>
      simp [checkAppointmentSlotsUniversal, h1, h2]
  · intro r h
    rcases Bool.or_eq_true_iff.mp h with h' | h3
    · rcases Bool.or_eq_true_iff.mp h' with h1 | h2
      · exact ⟨"Navigation timeout exceeded", by simp [checkAppointmentSlotsRotation, h1]⟩
      · by_cases h1 : r.navFails
        · exact ⟨"Navigation timeout exceeded", by simp [checkAppointmentSlotsRotation, h1]⟩
        · exact ⟨"Too Many Requests detected on appointment page",
            by simp [checkAppointmentSlotsRotation, h1, h2]⟩
    · by_cases h1 : r.navFails
      · exact ⟨"Navigation timeout exceeded", by simp [checkAppointmentSlotsRotation, h1]⟩
      · by_cases h2 : throttledContent r.content
        · exact ⟨"Too Many Requests detected on appointment page",
            by simp [checkAppointmentSlotsRotation, h1, h2]⟩
        · exact ⟨"Evaluation failed: frame detached",
            by simp [checkAppointmentSlotsRotation, h1, h2, h3]⟩

/-- Witness for `checkSlots_variants_error_spec`: a navigation failure
yields `false` in the universal variant and an error in the rotation
variant. -/
theorem checkSlots_variants_error_spec_witness :
    checkAppointmentSlotsUniversal navFailRun = .ok false
      ∧ (∃ e, checkAppointmentSlotsRotation navFailRun = .error e)
      ∧ (∃ e, checkAppointmentSlotsRotation throttledRun = .error e) :=
  ⟨checkSlots_variants_error_spec.2.1 navFailRun rfl,
    checkSlots_variants_error_spec.2.2.2.2 navFailRun rfl,
    checkSlots_variants_error_spec.2.2.2.2 throttledRun (by decide)⟩

end VisaCloud
